import Mathlib

/-!
Verification of the dependency-change and staleness detection engine of
`react-safe-hooks` against a shallow embedding of its TypeScript source.

JavaScript runtime values that can appear in a dependency list are modelled
by the inductive type `JSVal`.  Object and function values are represented
by references into an explicit heap (`Nat → List (String × JSVal)`), so that
`Object.is` on two object values is reference comparison, exactly as in the
runtime.  `NaN` and `-0` are separate constructors: `Object.is` treats `NaN`
as equal to itself and `+0`/`-0` as distinct, while `===` does the opposite,
and both comparison operators occur in the source.
-/

/-- Model of a JavaScript runtime value as seen by the library. -/
inductive JSVal where
  | undef
  | null
  | bool (b : Bool)
  | num (n : Int)
  | negZero
  | nan
  | str (s : String)
  | fn (ref : Nat)
  | obj (ref : Nat)
deriving DecidableEq, Repr

/-- `Object.is`: value identity.  On this value model it is structural
equality: `NaN` equals itself, `+0` (`num 0`) and `-0` (`negZero`) are
distinct constructors, objects/functions compare by heap reference. -/
def objectIs (a b : JSVal) : Bool := decide (a = b)

/-- JavaScript `===` (strict equality): like `Object.is` except that
`NaN === NaN` is false and `0 === -0` is true. -/
def strictEq (a b : JSVal) : Bool :=
  match a, b with
  | .nan, .nan => false
  | .negZero, .num 0 => true
  | .num 0, .negZero => true
  | _, _ => decide (a = b)

/-- JavaScript `typeof` (note `typeof null` is the string `"object"`). -/
def jsTypeof : JSVal → String
  | .undef => "undefined"
  | .null => "object"
  | .bool _ => "boolean"
  | .num _ => "number"
  | .negZero => "number"
  | .nan => "number"
  | .str _ => "string"
  | .fn _ => "function"
  | .obj _ => "object"

/-- Heaps map object references to their own enumerable (key, value) pairs. -/
abbrev JSHeap : Type := Nat → List (String × JSVal)

/-- First match lookup of an own property. -/
def lookupField : List (String × JSVal) → String → Option JSVal
  | [], _ => none
  | (k, v) :: rest, key => if k = key then some v else lookupField rest key

/-- `Object.prototype.hasOwnProperty.call(o, key)`. -/
def hasOwn (fields : List (String × JSVal)) (key : String) : Bool :=
  (lookupField fields key).isSome

/-- Property read `o[key]`: `undefined` when the key is absent. -/
def getProp (fields : List (String × JSVal)) (key : String) : JSVal :=
  (lookupField fields key).getD JSVal.undef

/-- `Object.keys(o)`. -/
def keysOf (fields : List (String × JSVal)) : List String :=
  fields.map Prod.fst

/-- The own enumerable properties of a value: non-objects have none. -/
def objFields (heap : JSHeap) : JSVal → List (String × JSVal)
  | .obj r => heap r
  | _ => []

/-- The key-count / per-key comparison part of `shallowEqual`
(part_000 lines 212-228): same number of own keys, and for every key of
`a`, `b` has the key and the two property values are `Object.is`-equal. -/
def shallowEqualObj (fa fb : List (String × JSVal)) : Bool :=
  if (keysOf fa).length ≠ (keysOf fb).length then false
  else (keysOf fa).all (fun k => hasOwn fb k && objectIs (getProp fa k) (getProp fb k))

/-- `shallowEqual` (part_000 lines 198-229). -/
def shallowEqual (heap : JSHeap) (a b : JSVal) : Bool :=
  if objectIs a b then true
  else if !(jsTypeof a == "object") || objectIs a JSVal.null
       || !(jsTypeof b == "object") || objectIs b JSVal.null then false
  else shallowEqualObj (objFields heap a) (objFields heap b)

/-- JavaScript array read `deps[i]`: `undefined` when out of range. -/
def getDep (l : List JSVal) (i : Nat) : JSVal := l.getD i JSVal.undef

/-- Result record of `trackDependencyChanges` (part_000 lines 178-189). -/
structure DepsChangeResult where
  hasChanges : Bool
  changedIndices : List Nat
  lengthChanged : Bool
  prevLength : Option Nat
  currentLength : Option Nat
deriving DecidableEq, Repr

/-- Loop body of the index comparison in `trackDependencyChanges`
(part_000 line 271): `!Object.is(currentDeps[i], prevDeps[i])`. -/
def depChangedAt (c p : List JSVal) (i : Nat) : Bool :=
  !objectIs (getDep c i) (getDep p i)

/-- `trackDependencyChanges` (part_000 lines 246-283).  `none` models an
absent (`undefined`) dependency list. -/
def trackDependencyChanges (currentDeps prevDeps : Option (List JSVal)) :
    DepsChangeResult :=
  match currentDeps, prevDeps with
  | none, none =>
      { hasChanges := false, changedIndices := [], lengthChanged := false
        prevLength := none, currentLength := none }
  | none, some p =>
      { hasChanges := true, changedIndices := [], lengthChanged := true
        prevLength := some p.length, currentLength := none }
  | some c, none =>
      { hasChanges := true, changedIndices := [], lengthChanged := true
        prevLength := none, currentLength := some c.length }
  | some c, some p =>
      let lengthChanged := c.length ≠ p.length
      let maxLength := max c.length p.length
      let changedIndices :=
        (List.range maxLength).foldl
          (fun acc i => if depChangedAt c p i then acc ++ [i] else acc) []
      { hasChanges := changedIndices.length > 0 || lengthChanged
        changedIndices := changedIndices
        lengthChanged := lengthChanged
        prevLength := if lengthChanged then some p.length else none
        currentLength := if lengthChanged then some c.length else none }

/-- `detectDepsLengthChange` (part_000 lines 292-303). -/
def detectDepsLengthChange (currentDeps prevDeps : Option (List JSVal)) : Bool :=
  match currentDeps, prevDeps with
  | none, none => false
  | none, some _ => true
  | some _, none => true
  | some c, some p => c.length ≠ p.length

/-- Per-index condition of `detectUnstableDeps` (part_000 lines 329-339):
identity differs (`!==`), both sides are non-null objects, and the shallow
comparison nevertheless succeeds. -/
def unstableAt (heap : JSHeap) (c p : List JSVal) (i : Nat) : Bool :=
  !strictEq (getDep c i) (getDep p i)
  && (jsTypeof (getDep c i) == "object") && !objectIs (getDep c i) JSVal.null
  && (jsTypeof (getDep p i) == "object") && !objectIs (getDep p i) JSVal.null
  && shallowEqual heap (getDep c i) (getDep p i)

/-- `detectUnstableDeps` (part_000 lines 313-344).  The `dev` argument is
the module's `__DEV__` flag, read in the guard `if (!__DEV__ || !prevDeps)`. -/
def detectUnstableDeps (dev : Bool) (heap : JSHeap) (currentDeps : List JSVal) :
    Option (List JSVal) → List Nat
  | none => []
  | some prev =>
      if dev = false then []
      else
        (List.range currentDeps.length).foldl
          (fun acc i => if unstableAt heap currentDeps prev i then acc ++ [i] else acc) []

/-- Accumulating push-loop over a list is a filter. -/
theorem foldl_push_eq_filter {α : Type} (p : α → Bool) :
    ∀ (l acc : List α),
      l.foldl (fun acc i => if p i then acc ++ [i] else acc) acc = acc ++ l.filter p
  | [], acc => by simp
  | a :: l, acc => by
      by_cases h : p a
      · simp [h, foldl_push_eq_filter p l (acc ++ [a])]
      · simp [h, foldl_push_eq_filter p l acc]

/-!
The warning system (`src/internal/warn.ts`): a deduplication store
(`warnedKeys`, a `Set<string>`) and a sink (`console.warn`, modelled as the
list of dispatched messages).  `__DEV__` is passed explicitly, since
`warnOnce` and `warn` read it on every call.
-/

/-- Mutable state of `warn.ts`: the `warnedKeys` set plus the messages
dispatched to the console sink so far. -/
structure WarnState where
  warnedKeys : List String
  sink : List String
deriving DecidableEq, Repr

/-- `warnOnce` (warn.ts lines 87-96). -/
def warnOnce (dev : Bool) (s : WarnState) (key message : String) : WarnState :=
  if dev = false then s
  else if key ∈ s.warnedKeys then s
  else { warnedKeys := key :: s.warnedKeys, sink := s.sink ++ [message] }

/-- `warn` (warn.ts lines 104-107). -/
def warn (dev : Bool) (s : WarnState) (message : String) : WarnState :=
  if dev = false then s
  else { s with sink := s.sink ++ [message] }

/-- `clearWarnings` (warn.ts lines 129-131). -/
def clearWarnings (s : WarnState) : WarnState :=
  { s with warnedKeys := [] }

/-!
Module-load semantics of the `__DEV__` flag (`devOnly.ts` line 13):
`export const __DEV__ = process.env.NODE_ENV !== "production"` is a
module-level constant, evaluated exactly once when the module is loaded.
Every later call sites read this constant, not `process.env`.  The process
model below carries both the load-time constant and the current value of
`process.env.NODE_ENV`, which can be reassigned mid-process.
-/

/-- The initializer expression of `__DEV__`: `process.env.NODE_ENV !== "production"`. -/
def computeDev (nodeEnv : String) : Bool := nodeEnv != "production"

/-- Process-wide state: the cached `__DEV__` constant (set at module load),
the current `process.env.NODE_ENV`, and the warning-system state. -/
structure ProcState where
  loadDev : Bool
  nodeEnv : String
  warned : List String
  sink : List String
deriving DecidableEq, Repr

/-- Module load: `__DEV__` is computed once from the environment. -/
def initProc (env : String) : ProcState :=
  { loadDev := computeDev env, nodeEnv := env, warned := [], sink := [] }

/-- Observable process events: reassigning `process.env.NODE_ENV`, or a call
to `warnOnce`. -/
inductive ProcEvent where
  | setEnv (env : String)
  | warnOnceEv (key message : String)
deriving DecidableEq, Repr

/-- One step of the process.  A `warnOnce` call reads the cached `__DEV__`
constant (`loadDev`), never the current `nodeEnv` — exactly as in
`devOnly.ts` line 13 / `warn.ts` lines 87-96. -/
def procStep (p : ProcState) : ProcEvent → ProcState
  | .setEnv e => { p with nodeEnv := e }
  | .warnOnceEv k m =>
      if p.loadDev = false then p
      else if k ∈ p.warned then p
      else { p with warned := k :: p.warned, sink := p.sink ++ [m] }

/-- Run a sequence of process events. -/
def procRun (p : ProcState) (evs : List ProcEvent) : ProcState :=
  evs.foldl procStep p

/-- Events that are `warnOnce` calls (as opposed to environment toggles). -/
def isWarnOnceEvent : ProcEvent → Bool
  | .setEnv _ => false
  | .warnOnceEv _ _ => true

/-!
Threshold classifiers.
-/

/-- `EXCESSIVE_CHANGE_THRESHOLD` (part_000 line 41). -/
def EXCESSIVE_CHANGE_THRESHOLD : Nat := 5

/-- `isExcessiveCallbackChange` (part_000 lines 51-68). -/
def isExcessiveCallbackChange (dev : Bool) (changeCount renderCount : Nat) : Bool :=
  if dev = false then false
  else if renderCount > 2 ∧ changeCount = renderCount then true
  else if changeCount > EXCESSIVE_CHANGE_THRESHOLD then true
  else false

/-- `DEFAULT_RECOMPUTE_THRESHOLD` (part_002 line 23). -/
def DEFAULT_RECOMPUTE_THRESHOLD : Nat := 10

/-- The excessive-recomputation test of `useSafeMemo`'s `wrappedFactory`
(part_002 lines 120-124), with the option defaulting of lines 72-73:
`warnOnRecompute ?? true`, `recomputeThreshold ?? DEFAULT_RECOMPUTE_THRESHOLD`.
The wrapped factory only exists in development mode (the hook returns the
bare `useMemo` before constructing it otherwise). -/
def recomputeWarnCondition (warnOnRecomputeOpt : Option Bool)
    (recomputeThresholdOpt : Option Nat)
    (recomputeCount renderCount : Nat) : Bool :=
  let warnOnRecompute := warnOnRecomputeOpt.getD true
  let recomputeThreshold := recomputeThresholdOpt.getD DEFAULT_RECOMPUTE_THRESHOLD
  warnOnRecompute && decide (recomputeCount > recomputeThreshold)
    && decide (recomputeCount = renderCount)

/-!
`useSafeContext` (useSafeContext.ts lines 59-97): outcome of one call, given
the `__DEV__` flag, the value `useContext` returned (`JSVal.undef` models
`undefined`), and the per-call `throwOnMissing` option.
-/

/-- Outcome of a `useSafeContext` call: either it threw, or it returned the
context value (recording whether a warning was dispatched on the way). -/
inductive ContextOutcome where
  | threw
  | returned (value : JSVal) (warned : Bool)
deriving DecidableEq, Repr

/-- `useSafeContext` (useSafeContext.ts lines 59-97). -/
def useSafeContext (dev : Bool) (value : JSVal) (throwOnMissingOpt : Option Bool) :
    ContextOutcome :=
  if dev = false then .returned value false
  else
    let throwOnMissing := throwOnMissingOpt.getD false
    if value = JSVal.undef then
      if throwOnMissing then .threw
      else .returned value true
    else .returned value false

/-- Whether an outcome is a thrown error. -/
def isThrown : ContextOutcome → Bool
  | .threw => true
  | .returned _ _ => false

/-!
The unmount-guarded setter of `useSafeState` (useSafeState.ts lines 81-103)
and dispatch of `useSafeReducer` (useSafeContext.ts part, lines 199-221).
A call is modelled by its effect on: the mounted flag (read-only here), the
list of values forwarded to the underlying React `setState`/`dispatch`, and
the number of warnings dispatched.
-/

/-- Observable trace of one state/reducer cell: the `isMountedRef` value,
the updates forwarded to the underlying React primitive, and how many
warnings have been dispatched. -/
structure UpdateTrace where
  mounted : Bool
  underlying : List JSVal
  warnings : Nat
deriving DecidableEq, Repr

/-- The setter `useSafeState` hands out: `safeSetState` in development mode
(drop + warn when unmounted), the bare `setState` in production. -/
def safeSetState (dev : Bool) (t : UpdateTrace) (value : JSVal) : UpdateTrace :=
  if dev = false then { t with underlying := t.underlying ++ [value] }
  else if t.mounted = false then { t with warnings := t.warnings + 1 }
  else { t with underlying := t.underlying ++ [value] }

/-- The dispatch `useSafeReducer` hands out: `safeDispatch` in development
mode (drop + warn when unmounted), the bare `dispatch` in production. -/
def safeDispatch (dev : Bool) (t : UpdateTrace) (action : JSVal) : UpdateTrace :=
  if dev = false then { t with underlying := t.underlying ++ [action] }
  else if t.mounted = false then { t with warnings := t.warnings + 1 }
  else { t with underlying := t.underlying ++ [action] }

/-!
Theorems for the individual claims.
-/

/-- The spec's reading of the index walk, for comparison with the source:
out-of-range positions are a distinct sentinel that never equals any
in-range value, so every index in range for only one list is changed. -/
def specChangedIndices (c p : List JSVal) : List Nat :=
  (List.range (max c.length p.length)).filter
    (fun i => if i < c.length ∧ i < p.length
              then !objectIs (getDep c i) (getDep p i)
              else true)

/-- C1 counterexample: with `current = [undefined]` and `previous = []`,
index 0 is in range only for `current`, yet `trackDependencyChanges` does
not report it as changed — the out-of-bounds read yields `undefined`, which
`Object.is`-equals the in-range value `undefined`.  The spec's sentinel
reading would report `[0]`. -/
theorem trackDependencyChanges_sentinel_counterexample :
    (trackDependencyChanges (some [JSVal.undef]) (some ([] : List JSVal))).changedIndices
        = ([] : List Nat)
    ∧ specChangedIndices [JSVal.undef] ([] : List JSVal) = [0] := by
  decide

/-- C1 (amended): for present lists, `trackDependencyChanges` walks indices
`0..max(len(current), len(previous))-1` and appends index `i` exactly when
`current[i]` and `previous[i]` are not `Object.is`-equal, where an
out-of-range read yields the `undefined` value (which compares equal to an
in-range `undefined`, not as a distinct sentinel). -/
theorem trackDependencyChanges_changedIndices_spec (c p : List JSVal) :
    (trackDependencyChanges (some c) (some p)).changedIndices
        = (List.range (max c.length p.length)).filter
            (fun i => !objectIs (getDep c i) (getDep p i))
    ∧ ∀ i : Nat,
        i ∈ (trackDependencyChanges (some c) (some p)).changedIndices
          ↔ i < max c.length p.length ∧ objectIs (getDep c i) (getDep p i) = false := by
  have hfold :
      (trackDependencyChanges (some c) (some p)).changedIndices
        = (List.range (max c.length p.length)).filter (fun i => depChangedAt c p i) := by
    simp [trackDependencyChanges, foldl_push_eq_filter]
  constructor
  · simpa [depChangedAt] using hfold
  · intro i
    rw [hfold]
    simp [List.mem_filter, List.mem_range, depChangedAt]

/-- C4: with diagnostics enabled, `isExcessiveCallbackChange` holds exactly
when the callback changed on every cycle past the first two, or more than 5
times in total. -/
theorem isExcessiveCallbackChange_iff (changeCount renderCount : Nat) :
    isExcessiveCallbackChange true changeCount renderCount = true
      ↔ (renderCount > 2 ∧ changeCount = renderCount) ∨ changeCount > 5 := by
  by_cases h1 : renderCount > 2 ∧ changeCount = renderCount
  · simp [isExcessiveCallbackChange, h1]
  · by_cases h2 : changeCount > 5
    · simp [isExcessiveCallbackChange, EXCESSIVE_CHANGE_THRESHOLD, h1, h2]
    · simp [isExcessiveCallbackChange, EXCESSIVE_CHANGE_THRESHOLD, h1, h2]

/-- C5: the excessive-recomputation test of `useSafeMemo` (with
`warnOnRecompute` left at its default) holds exactly when the recompute
count exceeds the threshold (defaulting to 10, overridable per call-site)
and equals the render count. -/
theorem recomputeWarnCondition_iff (recomputeThresholdOpt : Option Nat)
    (recomputeCount renderCount : Nat) :
    recomputeWarnCondition none recomputeThresholdOpt recomputeCount renderCount = true
      ↔ recomputeCount > recomputeThresholdOpt.getD 10
        ∧ recomputeCount = renderCount := by
  simp [recomputeWarnCondition, DEFAULT_RECOMPUTE_THRESHOLD]

/-- C7 counterexample: in production mode (`__DEV__ = false`) the context
value is `undefined` and `throwOnMissing` is `true`, yet `useSafeContext`
does not throw — it returns the value before the escalation check runs. -/
theorem useSafeContext_prod_counterexample :
    isThrown (useSafeContext false JSVal.undef (some true)) = false
    ∧ useSafeContext false JSVal.undef (some true)
        = ContextOutcome.returned JSVal.undef false := by
  decide

/-- C7 (amended): in development mode `useSafeContext` throws exactly when
the consumed value is `undefined` and `throwOnMissing` (default `false`) is
set; with the flag unset the missing-provider case only warns and returns
the `undefined` value; in production mode it never throws or warns. -/
theorem useSafeContext_throw_iff (value : JSVal) (throwOnMissingOpt : Option Bool) :
    (isThrown (useSafeContext true value throwOnMissingOpt) = true
        ↔ value = JSVal.undef ∧ throwOnMissingOpt.getD false = true)
    ∧ isThrown (useSafeContext false value throwOnMissingOpt) = false
    ∧ useSafeContext false value throwOnMissingOpt
        = ContextOutcome.returned value false
    ∧ useSafeContext true value none = useSafeContext true value (some false)
    ∧ useSafeContext true JSVal.undef (some false)
        = ContextOutcome.returned JSVal.undef true := by
  by_cases hv : value = JSVal.undef
  · subst hv
    cases throwOnMissingOpt with
    | none => simp [useSafeContext, isThrown]
    | some b => cases b <;> simp [useSafeContext, isThrown]
  · cases throwOnMissingOpt with
    | none => simp [useSafeContext, isThrown, hv]
    | some b => cases b <;> simp [useSafeContext, isThrown, hv]

/-- C9: in development mode, the setter of `useSafeState` and the dispatch
of `useSafeReducer` drop the update and emit a warning when the component
has unmounted, and forward the value/action unchanged to the underlying
React primitive while it is mounted. -/
theorem safe_update_after_unmount (underlying : List JSVal) (warnings : Nat)
    (v : JSVal) :
    safeSetState true ⟨false, underlying, warnings⟩ v
        = ⟨false, underlying, warnings + 1⟩
    ∧ safeDispatch true ⟨false, underlying, warnings⟩ v
        = ⟨false, underlying, warnings + 1⟩
    ∧ safeSetState true ⟨true, underlying, warnings⟩ v
        = ⟨true, underlying ++ [v], warnings⟩
    ∧ safeDispatch true ⟨true, underlying, warnings⟩ v
        = ⟨true, underlying ++ [v], warnings⟩ := by
  refine ⟨rfl, rfl, rfl, rfl⟩

/-- C6: with diagnostics enabled, `warnOnce` dispatches at most once per key
between resets: a fresh key dispatches its message, a second call with the
same key is a no-op, and after `clearWarnings` the same key dispatches
again. -/
theorem warnOnce_dedup (s : WarnState) (k m1 m2 m3 : String)
    (h : k ∉ s.warnedKeys) :
    (warnOnce true s k m1).sink = s.sink ++ [m1]
    ∧ warnOnce true (warnOnce true s k m1) k m2 = warnOnce true s k m1
    ∧ (warnOnce true (clearWarnings (warnOnce true s k m1)) k m3).sink
        = (warnOnce true s k m1).sink ++ [m3] := by
  simp [warnOnce, clearWarnings, h]

/-- Witness for `warnOnce_dedup` at the empty store with key `"k1"`. -/
theorem warnOnce_dedup_witness :
    (("k1") ∉ (WarnState.mk [] []).warnedKeys)
    ∧ ((warnOnce true (WarnState.mk [] []) ("k1") ("m1")).sink
          = (WarnState.mk [] []).sink ++ [("m1")]
       ∧ warnOnce true (warnOnce true (WarnState.mk [] []) ("k1") ("m1")) ("k1") ("m2")
          = warnOnce true (WarnState.mk [] []) ("k1") ("m1")
       ∧ (warnOnce true (clearWarnings (warnOnce true (WarnState.mk [] []) ("k1") ("m1")))
            ("k1") ("m3")).sink
          = (warnOnce true (WarnState.mk [] []) ("k1") ("m1")).sink ++ [("m3")]) :=
  ⟨by decide, warnOnce_dedup (WarnState.mk [] []) ("k1") ("m1") ("m2") ("m3") (by decide)⟩

/-- C2 counterexample: `detectUnstableDeps` is *not* unaffected by the
global disable flag.  With two distinct but shallow-equal object references
it reports index 0 when diagnostics are enabled, and reports nothing when
they are disabled — so its result depends on the flag. -/
theorem detectUnstableDeps_gated_counterexample :
    detectUnstableDeps true (fun _ => []) [JSVal.obj 0] (some [JSVal.obj 1]) = [0]
    ∧ detectUnstableDeps false (fun _ => []) [JSVal.obj 0] (some [JSVal.obj 1])
        = ([] : List Nat) := by
  decide

/-- C2 (amended): with the global disable flag set, no operation dispatches
to the sink (`warnOnce` and `warn` leave the warning state untouched), and
the pure computations `trackDependencyChanges` and `shallowEqual` never
consult the flag — but `detectUnstableDeps` *is* gated on it and returns
the empty index list whenever the flag is set. -/
theorem disabled_mode_no_dispatch_and_gating :
    (∀ (s : WarnState) (k m : String), warnOnce false s k m = s)
    ∧ (∀ (s : WarnState) (m : String), warn false s m = s)
    ∧ (∀ (heap : JSHeap) (c : List JSVal) (p : Option (List JSVal)),
        detectUnstableDeps false heap c p = []) := by
  refine ⟨fun s k m => by simp [warnOnce], fun s m => by simp [warn], ?_⟩
  intro heap c p
  cases p <;> simp [detectUnstableDeps]

/-- C10: `detectUnstableDeps` reports an index only when the previous list
is present, the index is in range of the current list, and both the current
and the previous value at that index are non-null values of `typeof`
`"object"` — so functions and primitives are never reported. -/
theorem detectUnstableDeps_objects_only (dev : Bool) (heap : JSHeap)
    (c : List JSVal) (po : Option (List JSVal)) (i : Nat)
    (h : i ∈ detectUnstableDeps dev heap c po) :
    ∃ p, po = some p
      ∧ i < c.length
      ∧ jsTypeof (getDep c i) = "object" ∧ getDep c i ≠ JSVal.null
      ∧ jsTypeof (getDep p i) = "object" ∧ getDep p i ≠ JSVal.null := by
  cases po with
  | none => simp [detectUnstableDeps] at h
  | some p =>
      refine ⟨p, rfl, ?_⟩
      cases dev with
      | false => simp [detectUnstableDeps] at h
      | true =>
          rw [detectUnstableDeps] at h
          simp only [Bool.true_eq_false, if_false, reduceCtorEq] at h
          rw [foldl_push_eq_filter (unstableAt heap c p) (List.range c.length) []] at h
          simp only [List.nil_append, List.mem_filter, List.mem_range] at h
          obtain ⟨hi, hcond⟩ := h
          simp only [unstableAt, Bool.and_eq_true, beq_iff_eq, Bool.not_eq_true',
            objectIs, decide_eq_false_iff_not] at hcond
          exact ⟨hi, hcond.1.1.1.1.2, hcond.1.1.1.2, hcond.1.1.2, hcond.1.2⟩

/-- Witness for `detectUnstableDeps_objects_only`: two distinct object
references with equal (empty) shallow content at index 0. -/
theorem detectUnstableDeps_objects_only_witness :
    (0 ∈ detectUnstableDeps true (fun _ => []) [JSVal.obj 0] (some [JSVal.obj 1]))
    ∧ ∃ p, (some [JSVal.obj 1] : Option (List JSVal)) = some p
        ∧ 0 < ([JSVal.obj 0] : List JSVal).length
        ∧ jsTypeof (getDep [JSVal.obj 0] 0) = "object"
        ∧ getDep [JSVal.obj 0] 0 ≠ JSVal.null
        ∧ jsTypeof (getDep p 0) = "object" ∧ getDep p 0 ≠ JSVal.null :=
  ⟨by decide,
   detectUnstableDeps_objects_only true (fun _ => []) [JSVal.obj 0]
     (some [JSVal.obj 1]) 0 (by decide)⟩

/-- C3 counterexample: `__DEV__` is a module-level constant, computed once
at load.  Loading with `NODE_ENV = "development"`, then switching the
environment to `"production"` (diagnostics disabled), a subsequent
`warnOnce` call still dispatches — the toggle does not take effect. -/
theorem warnOnce_env_toggle_counterexample :
    computeDev ("production") = false
    ∧ (procRun (initProc ("development"))
        [ProcEvent.setEnv ("production"), ProcEvent.warnOnceEv ("k") ("m")]).sink
        = [("m")] := by
  decide

/-- A `procStep` leaves `loadDev` unchanged, and its effect on
`warned`/`sink` depends only on `loadDev`, `warned` and `sink` — never on
the current `nodeEnv`. -/
theorem procStep_agree (p q : ProcState) (ev : ProcEvent)
    (hd : p.loadDev = q.loadDev) (hw : p.warned = q.warned)
    (hs : p.sink = q.sink) :
    (procStep p ev).loadDev = (procStep q ev).loadDev
    ∧ (procStep p ev).warned = (procStep q ev).warned
    ∧ (procStep p ev).sink = (procStep q ev).sink := by
  cases ev with
  | setEnv e => exact ⟨hd, hw, hs⟩
  | warnOnceEv k m =>
      obtain ⟨pd, pe, pw, ps⟩ := p
      obtain ⟨qd, qe, qw, qs⟩ := q
      simp only at hd hw hs
      subst hd; subst hw; subst hs
      by_cases h1 : pd = false
      · simp [procStep, h1]
      · by_cases h2 : k ∈ pw
        · simp [procStep, h1, h2]
        · simp [procStep, h1, h2]

/-- Dropping `setEnv` events from a trace does not change the warning
observables, because `warnOnce` reads the cached load-time flag. -/
theorem procRun_filter_agree :
    ∀ (evs : List ProcEvent) (p q : ProcState),
      p.loadDev = q.loadDev → p.warned = q.warned → p.sink = q.sink →
      (procRun p evs).loadDev = (procRun q (evs.filter isWarnOnceEvent)).loadDev
      ∧ (procRun p evs).warned = (procRun q (evs.filter isWarnOnceEvent)).warned
      ∧ (procRun p evs).sink = (procRun q (evs.filter isWarnOnceEvent)).sink
  | [], p, q, hd, hw, hs => ⟨hd, hw, hs⟩
  | .setEnv e :: rest, p, q, hd, hw, hs => by
      have hstep : (procStep p (.setEnv e)).loadDev = q.loadDev
          ∧ (procStep p (.setEnv e)).warned = q.warned
          ∧ (procStep p (.setEnv e)).sink = q.sink := ⟨hd, hw, hs⟩
      simpa [procRun, List.filter, isWarnOnceEvent] using
        procRun_filter_agree rest (procStep p (.setEnv e)) q
          hstep.1 hstep.2.1 hstep.2.2
  | .warnOnceEv k m :: rest, p, q, hd, hw, hs => by
      have hstep := procStep_agree p q (.warnOnceEv k m) hd hw hs
      simpa [procRun, List.filter, isWarnOnceEvent] using
        procRun_filter_agree rest (procStep p (.warnOnceEv k m))
          (procStep q (.warnOnceEv k m)) hstep.1 hstep.2.1 hstep.2.2

/-- C3 (amended): the diagnostics flag is evaluated once at module load
from `NODE_ENV` and cached in the `__DEV__` constant; every `warnOnce` call
reads that constant, so toggling the environment mid-process never affects
emission.  Every trace dispatches exactly what the same trace with all
environment toggles removed dispatches, and a single call emits according
to the load-time environment alone. -/
theorem warnOnce_env_toggle_irrelevant (env : String) (evs : List ProcEvent)
    (k m : String) :
    (procRun (initProc env) evs).sink
        = (procRun (initProc env) (evs.filter isWarnOnceEvent)).sink
    ∧ (procStep (initProc env) (ProcEvent.warnOnceEv k m)).sink
        = (if computeDev env then [m] else []) := by
  constructor
  · exact (procRun_filter_agree evs (initProc env) (initProc env) rfl rfl rfl).2.2
  · cases h : computeDev env <;> simp [procStep, initProc, h]

/-- A key is among `Object.keys` exactly when the lookup succeeds. -/
theorem mem_keysOf (fields : List (String × JSVal)) (k : String) :
    k ∈ keysOf fields ↔ (lookupField fields k).isSome = true := by
  induction fields with
  | nil => simp [keysOf, lookupField]
  | cons kv rest ih =>
      obtain ⟨k', v⟩ := kv
      have hkeys : keysOf ((k', v) :: rest) = k' :: keysOf rest := rfl
      by_cases h : k' = k
      · subst h
        simp [hkeys, lookupField]
      · have hlk : lookupField ((k', v) :: rest) k = lookupField rest k := by
          simp [lookupField, h]
        rw [hkeys, List.mem_cons, hlk]
        simp [Ne.symm h, ih]

/-- Under duplicate-free keys (the situation of real JavaScript objects,
whose own keys are a set), the key-count plus per-key comparison of
`shallowEqual` says exactly that the two property tables agree at every
key — a manifestly symmetric condition. -/
theorem shallowEqualObj_true_iff (fa fb : List (String × JSVal))
    (ha : (keysOf fa).Nodup) (hb : (keysOf fb).Nodup) :
    shallowEqualObj fa fb = true ↔ ∀ k, lookupField fa k = lookupField fb k := by
  constructor
  · intro h
    by_cases hlen : (keysOf fa).length ≠ (keysOf fb).length
    · rw [shallowEqualObj, if_pos hlen] at h
      exact absurd h (by simp)
    · rw [shallowEqualObj, if_neg hlen] at h
      have hlen' : (keysOf fa).length = (keysOf fb).length := not_ne_iff.mp hlen
      have hall := List.all_eq_true.mp h
      have hsub : keysOf fa ⊆ keysOf fb := by
        intro x hx
        have hx' := hall x hx
        simp only [Bool.and_eq_true] at hx'
        exact (mem_keysOf fb x).mpr (by simpa [hasOwn] using hx'.1)
      have hperm : List.Perm (keysOf fa) (keysOf fb) :=
        (List.subperm_of_subset ha hsub).perm_of_length_le (le_of_eq hlen'.symm)
      intro k
      by_cases hk : k ∈ keysOf fa
      · have hk' := hall k hk
        simp only [Bool.and_eq_true] at hk'
        obtain ⟨hown, hisv⟩ := hk'
        obtain ⟨u, hu⟩ := Option.isSome_iff_exists.mp ((mem_keysOf fa k).mp hk)
        obtain ⟨w, hw⟩ := Option.isSome_iff_exists.mp (by simpa [hasOwn] using hown)
        have hval : getProp fa k = getProp fb k :=
          of_decide_eq_true (by simpa [objectIs] using hisv)
        have huw : u = w := by simpa [getProp, hu, hw] using hval
        rw [hu, hw, huw]
      · have hkb : k ∉ keysOf fb := fun hmem => hk (hperm.mem_iff.mpr hmem)
        have h1 : lookupField fa k = none := by
          cases hfa : lookupField fa k with
          | none => rfl
          | some v => exact absurd ((mem_keysOf fa k).mpr (by simp [hfa])) hk
        have h2 : lookupField fb k = none := by
          cases hfb : lookupField fb k with
          | none => rfl
          | some v => exact absurd ((mem_keysOf fb k).mpr (by simp [hfb])) hkb
        rw [h1, h2]
  · intro hL
    have hmem : ∀ x, x ∈ keysOf fa ↔ x ∈ keysOf fb := by
      intro x
      rw [mem_keysOf, mem_keysOf, hL x]
    have hperm : List.Perm (keysOf fa) (keysOf fb) :=
      (List.perm_ext_iff_of_nodup ha hb).mpr hmem
    rw [shallowEqualObj, if_neg (by simp [hperm.length_eq])]
    refine List.all_eq_true.mpr ?_
    intro x hx
    have hsa : (lookupField fa x).isSome = true := (mem_keysOf fa x).mp hx
    simp only [Bool.and_eq_true]
    refine ⟨?_, ?_⟩
    · simp only [hasOwn, ← hL x]
      exact hsa
    · simp [objectIs, getProp, hL x]

/-- The non-composite guard of `shallowEqual` passes exactly when both
values are object references. -/
theorem shallowEqual_guard_false_iff (a b : JSVal) :
    (!(jsTypeof a == "object") || objectIs a JSVal.null
      || !(jsTypeof b == "object") || objectIs b JSVal.null) = false
    ↔ (∃ ra, a = JSVal.obj ra) ∧ ∃ rb, b = JSVal.obj rb := by
  cases a <;> cases b <;> simp [jsTypeof, objectIs]

/-- Characterization of `shallowEqual`: true exactly on `Object.is`-equal
values, or on two object references whose property tables agree at every
key. -/
theorem shallowEqual_true_iff (heap : JSHeap)
    (hnd : ∀ r, (keysOf (heap r)).Nodup) (a b : JSVal) :
    shallowEqual heap a b = true
      ↔ a = b ∨ ∃ ra rb, a = JSVal.obj ra ∧ b = JSVal.obj rb
          ∧ ∀ k, lookupField (heap ra) k = lookupField (heap rb) k := by
  by_cases hab : a = b
  · subst hab
    simp [shallowEqual, objectIs]
  · have hne : objectIs a b = false := by simp [objectIs, hab]
    rw [shallowEqual, hne]
    simp only [Bool.false_eq_true, if_false]
    cases hg : (!(jsTypeof a == "object") || objectIs a JSVal.null
        || !(jsTypeof b == "object") || objectIs b JSVal.null) with
    | true =>
        simp only [if_true]
        constructor
        · intro h
          exact absurd h (by simp)
        · rintro (h | ⟨ra, rb, hA, hB, hL⟩)
          · exact absurd h hab
          · have hgf : (!(jsTypeof a == "object") || objectIs a JSVal.null
                || !(jsTypeof b == "object") || objectIs b JSVal.null) = false :=
              (shallowEqual_guard_false_iff a b).mpr ⟨⟨ra, hA⟩, ⟨rb, hB⟩⟩
            rw [hgf] at hg
            exact absurd hg (by simp)
    | false =>
        obtain ⟨⟨ra, hA⟩, ⟨rb, hB⟩⟩ := (shallowEqual_guard_false_iff a b).mp hg
        subst hA; subst hB
        simp only [if_false, Bool.false_eq_true, objFields]
        rw [shallowEqualObj_true_iff (heap ra) (heap rb) (hnd ra) (hnd rb)]
        constructor
        · intro h
          exact Or.inr ⟨ra, rb, rfl, rfl, h⟩
        · rintro (h | ⟨ra', rb', hA', hB', hL⟩)
          · exact absurd h hab
          · injection hA' with h1
            injection hB' with h2
            subst h1; subst h2
            exact hL

/-- C8: `shallowEqual` is symmetric — for every heap whose objects have
duplicate-free key lists (as JavaScript objects do) and all values `a`,
`b`, `equal(a, b) == equal(b, a)`. -/
theorem shallowEqual_symm (heap : JSHeap)
    (hnd : ∀ r, (keysOf (heap r)).Nodup) (a b : JSVal) :
    shallowEqual heap a b = shallowEqual heap b a := by
  have h1 := shallowEqual_true_iff heap hnd a b
  have h2 := shallowEqual_true_iff heap hnd b a
  cases hx : shallowEqual heap a b with
  | true =>
      rcases h1.mp hx with h | ⟨ra, rb, hA, hB, hL⟩
      · exact (h2.mpr (Or.inl h.symm)).symm
      · exact (h2.mpr (Or.inr ⟨rb, ra, hB, hA, fun k => (hL k).symm⟩)).symm
  | false =>
      cases hy : shallowEqual heap b a with
      | false => rfl
      | true =>
          rcases h2.mp hy with h | ⟨rb, ra, hB, hA, hL⟩
          · rw [h1.mpr (Or.inl h.symm)] at hx
            exact hx.symm
          · rw [h1.mpr (Or.inr ⟨ra, rb, hA, hB, fun k => (hL k).symm⟩)] at hx
            exact hx.symm

/-- Witness for `shallowEqual_symm`: the empty heap and two distinct object
references. -/
theorem shallowEqual_symm_witness :
    (∀ r : Nat, (keysOf ((fun (_ : Nat) => ([] : List (String × JSVal))) r)).Nodup)
    ∧ shallowEqual (fun (_ : Nat) => ([] : List (String × JSVal))) (JSVal.obj 0) (JSVal.obj 1)
        = shallowEqual (fun (_ : Nat) => ([] : List (String × JSVal))) (JSVal.obj 1) (JSVal.obj 0) :=
  ⟨fun _ => List.nodup_nil,
   shallowEqual_symm (fun (_ : Nat) => ([] : List (String × JSVal)))
     (fun _ => List.nodup_nil) (JSVal.obj 0) (JSVal.obj 1)⟩
